import Mathlib

/-!
BiliLiveSpeaker: a verification development.

Shallow embedding of `BiliLiveSpeaker.user.js` (a userscript that reads the
chat feed and the status banner of a live page aloud) together with theorems
about its de-duplication, normalisation, banner change detection and speech
dispatch.

Conventions of the embedding

* A JavaScript string is the list of its UTF-16 code units, so that
  `.length` is `List.length` and `.substring(0, n)` is `List.take n`.
* A value that may be `undefined`/`null` is an `Option`.
* The page (DOM nodes), the console and `window.speechSynthesis` form the
  environment; the functions of the script pass the environment explicitly.
-/

namespace BiliLiveSpeaker

/-! ## JavaScript strings -/

/-- One UTF-16 code unit. -/
abbrev CodeUnit := Nat

/-- A JavaScript string: its sequence of UTF-16 code units. -/
abbrev JSString := List CodeUnit

/-- UTF-16 code units of one Unicode scalar value. -/
def utf16Char (c : Char) : List CodeUnit :=
  if c.toNat < 0x10000 then [c.toNat]
  else [0xD800 + (c.toNat - 0x10000) / 0x400, 0xDC00 + (c.toNat - 0x10000) % 0x400]

/-- UTF-16 code units of a source literal. -/
def utf16 (s : String) : JSString :=
  s.toList.flatMap utf16Char

/-- ECMAScript `WhiteSpace` and `LineTerminator` code points, the ones
`String.prototype.trim` strips. All of them are single code units. -/
def isTrimUnit (u : CodeUnit) : Bool :=
  u == 0x0009 || u == 0x000A || u == 0x000B || u == 0x000C || u == 0x000D ||
  u == 0x0020 || u == 0x00A0 || u == 0x1680 ||
  (0x2000 ≤ u && u ≤ 0x200A) ||
  u == 0x2028 || u == 0x2029 || u == 0x202F || u == 0x205F || u == 0x3000 ||
  u == 0xFEFF

/-- Method `String.prototype.trim`. -/
def trim (s : JSString) : JSString :=
  ((s.dropWhile isTrimUnit).reverse.dropWhile isTrimUnit).reverse

/-- JavaScript truthiness of a `string | undefined` value: defined and not
the empty string. -/
def truthy : Option JSString → Bool
  | none => false
  | some s => !s.isEmpty

/-- The expression `a || b` for `a : string | undefined` and `b : string`. -/
def orString (a : Option JSString) (b : JSString) : JSString :=
  match a with
  | some s => if s.isEmpty then b else s
  | none => b

/-- The expression `a || b` where both operands may be `undefined`. -/
def orOption (a b : Option JSString) : Option JSString :=
  if truthy a then a else b

/-! ## The page -/

/-- A DOM node: a text node, a comment node, or an element with its class
list, its `dataset` (the `data-*` attributes, keyed by camel-cased name) and
its child nodes in document order. -/
inductive Node where
  | text (data : JSString)
  | comment (data : JSString)
  | element (classList : List JSString) (dataset : List (JSString × JSString))
      (childNodes : List Node)

/-- An element node (`nodeType === 1`) taken apart: the values the script
passes around as `HTMLElement`. -/
structure HTMLElement where
  classList : List JSString
  dataset : List (JSString × JSString)
  childNodes : List Node

/-- The element as a node. -/
def HTMLElement.toNode (e : HTMLElement) : Node :=
  .element e.classList e.dataset e.childNodes

/-- Property `node.nodeType`: 1 for elements, 3 for text, 8 for comments. -/
def Node.nodeType : Node → Nat
  | .element _ _ _ => 1
  | .text _ => 3
  | .comment _ => 8

/-- The node seen as an element, when `nodeType === 1`. -/
def Node.asElement? : Node → Option HTMLElement
  | .element c d ks => some ⟨c, d, ks⟩
  | .text _ => none
  | .comment _ => none

mutual
/-- What a node contributes to the `textContent` of an ancestor element:
text nodes their data, comments nothing, elements the text below them. -/
def Node.innerText : Node → JSString
  | .text d => d
  | .comment _ => []
  | .element _ _ cs => childrenText cs
termination_by structural n => n
/-- Concatenated contribution of a list of sibling nodes. -/
def childrenText : List Node → JSString
  | [] => []
  | c :: cs => c.innerText ++ childrenText cs
termination_by structural l => l
end

/-- Property `element.textContent`. -/
def HTMLElement.textContent (e : HTMLElement) : JSString :=
  childrenText e.childNodes

mutual
/-- Elements of the subtree rooted at a node, the node included, in document
(pre-)order. -/
def Node.subtreeElements : Node → List HTMLElement
  | .text _ => []
  | .comment _ => []
  | .element c d ks => ⟨c, d, ks⟩ :: elementsOfList ks
termination_by structural n => n
/-- Elements of the subtrees rooted at a list of siblings, in document
order. -/
def elementsOfList : List Node → List HTMLElement
  | [] => []
  | c :: cs => c.subtreeElements ++ elementsOfList cs
termination_by structural l => l
end

/-- Proper element descendants of an element, in document order. -/
def HTMLElement.descendants (e : HTMLElement) : List HTMLElement :=
  elementsOfList e.childNodes

/-- A compound class selector such as `.chat-item.danmaku-item`: the list of
class names an element must all carry. -/
abbrev Selector := List JSString

/-- Method `element.matches(selector)`. -/
def HTMLElement.matches (e : HTMLElement) (sel : Selector) : Bool :=
  sel.all fun c => e.classList.contains c

/-- Method `element.querySelectorAll(selector)`: the matching proper descendants in
document order. -/
def HTMLElement.querySelectorAll (e : HTMLElement) (sel : Selector) : List HTMLElement :=
  e.descendants.filter fun d => d.matches sel

/-- Method `element.querySelector(selector)`: the first matching proper descendant,
`null` when there is none. -/
def HTMLElement.querySelector (e : HTMLElement) (sel : Selector) : Option HTMLElement :=
  e.descendants.find? fun d => d.matches sel

/-- Property `element.dataset[key]`: `undefined` when the attribute is absent. -/
def HTMLElement.data (e : HTMLElement) (key : JSString) : Option JSString :=
  e.dataset.lookup key

/-- The selector `.chat-item.danmaku-item`. -/
def chatItemSelector : Selector := [utf16 "chat-item", utf16 "danmaku-item"]

/-- The selector `.danmaku-item-right`. -/
def danmakuRightSelector : Selector := [utf16 "danmaku-item-right"]

/-! ## Console and speech output -/

/-- A `SpeechSynthesisUtterance` with the properties the script sets. The
rate is kept in tenths (`1.2` is `12`). -/
structure SpeechSynthesisUtterance where
  text : JSString
  lang : JSString
  rateTenths : Nat
  pitch : Nat
  volume : Nat
deriving DecidableEq

/-- The environment the script acts on.

* `console`: the lines written with `console.log`, oldest first.
* `speechSynthesis`: `none` when `window.speechSynthesis` is missing,
  otherwise the utterances the synthesiser holds (the one being spoken
  first, then the pending ones).
* `speakCalls`: history variable, the arguments `speakText` has been called
  with, oldest first. Nothing reads it. -/
structure World where
  console : List JSString
  speechSynthesis : Option (List SpeechSynthesisUtterance)
  speakCalls : List JSString
deriving DecidableEq

/-- Method `speechSynthesis.cancel()`: removes every utterance from the queue,
the one being spoken included. -/
def synthCancel (_queue : List SpeechSynthesisUtterance) : List SpeechSynthesisUtterance :=
  []

/-- Method `speechSynthesis.speak(u)`: appends the utterance to the queue. -/
def synthSpeak (queue : List SpeechSynthesisUtterance) (u : SpeechSynthesisUtterance) :
    List SpeechSynthesisUtterance :=
  queue ++ [u]

/-- Method `console.log(line)`. -/
def consoleLog (line : JSString) (w : World) : World :=
  { w with console := w.console ++ [line] }

/-! ## Core functions of the script -/

/-- Constant `MAX_USERNAME_LENGTH`. -/
def MAX_USERNAME_LENGTH : Nat := 10

/-- Function `speakText`. -/
def speakText (text : JSString) (w : World) : World :=
  let w := { w with speakCalls := w.speakCalls ++ [text] }
  if text.isEmpty then w
  else
    match w.speechSynthesis with
    | none => w
    | some queue =>
      let utterance : SpeechSynthesisUtterance :=
        { text := text, lang := utf16 "zh-CN", rateTenths := 12, pitch := 1, volume := 1 }
      { w with speechSynthesis := some (synthSpeak (synthCancel queue) utterance) }

/-- Function `truncateUsername`. -/
def truncateUsername (username : JSString) : JSString :=
  if username.length > MAX_USERNAME_LENGTH then username.take MAX_USERNAME_LENGTH
  else username

/-- Function `handleDanmaku`. -/
def handleDanmaku (username content : JSString) (w : World) : World :=
  let truncatedName := truncateUsername username
  let message := truncatedName ++ utf16 "说：" ++ content
  speakText message (consoleLog (utf16 "[弹幕] " ++ message) w)

/-- Function `handlePrompt`. -/
def handlePrompt (message : JSString) (w : World) : World :=
  speakText message (consoleLog (utf16 "[提示] " ++ message) w)

/-! ## Chat feed monitor -/

/-- State of `monitorChatItems` once it observes: the closure variable
`processedIds` (a `Set`, kept in insertion order) and the environment. -/
structure ChatState where
  processedIds : List JSString
  world : World
deriving DecidableEq

/-- The test `timestamp && processedIds.has(timestamp)`. -/
def alreadyProcessed (processedIds : List JSString) : Option JSString → Bool
  | some ts => !ts.isEmpty && processedIds.contains ts
  | none => false

/-- The statement `if (timestamp) processedIds.add(timestamp)`. -/
def recordProcessed (processedIds : List JSString) : Option JSString → List JSString
  | some ts =>
    if ts.isEmpty then processedIds
    else if processedIds.contains ts then processedIds
    else processedIds ++ [ts]
  | none => processedIds

/-- Function `processDanmakuItem` (inner function of `monitorChatItems`). -/
def processDanmakuItem (item : HTMLElement) (st : ChatState) : ChatState :=
  let timestamp := item.data (utf16 "timestamp")
  if alreadyProcessed st.processedIds timestamp then st
  else
    let username := orString (item.data (utf16 "uname")) (utf16 "未知用户")
    let content :=
      orString
        (orOption (item.data (utf16 "danmaku"))
          ((item.querySelector danmakuRightSelector).map fun right => trim right.textContent))
        (utf16 "无内容")
    { processedIds := recordProcessed st.processedIds timestamp
      world := handleDanmaku username content st.world }

/-- Loop `items.forEach(item => processDanmakuItem(item))`. -/
def processAll (items : List HTMLElement) (st : ChatState) : ChatState :=
  items.foldl (fun s item => processDanmakuItem item s) st

/-- A `MutationRecord`, with the one field the script reads. -/
structure MutationRecord where
  addedNodes : List Node

/-- Body of `mutation.addedNodes.forEach(node => ...)` in the chat
observer. -/
def processAddedNode (node : Node) (st : ChatState) : ChatState :=
  match node.asElement? with
  | some e =>
    if e.matches chatItemSelector then processDanmakuItem e st
    else processAll (e.querySelectorAll chatItemSelector) st
  | none => st

/-- Callback of `chatObserver`. -/
def chatObserverCallback (mutations : List MutationRecord) (st : ChatState) : ChatState :=
  mutations.foldl
    (fun s mutation => mutation.addedNodes.foldl (fun s node => processAddedNode node s) s) st

/-- Function `monitorChatItems`, given the result of
`document.getElementById('chat-items')`: `none` when the list is missing
(nothing is observed), otherwise the state after the existing items were
processed. -/
def monitorChatItems (chatList : Option HTMLElement) (w : World) : Option ChatState × World :=
  match chatList with
  | none =>
    let w := consoleLog (utf16 "未找到聊天列表元素（chat-items）") w
    (none, w)
  | some chatList =>
    let st := processAll (chatList.querySelectorAll chatItemSelector)
      { processedIds := [], world := w }
    (some st, st.world)

/-! ## Banner monitor -/

/-- State of `monitorBrushPrompt` once it observes: the closure variable
`currentText` and the environment. -/
structure PromptState where
  currentText : JSString
  world : World
deriving DecidableEq

/-- Callback of `promptObserver`; `brushPrompt` is the banner element as it
is when the callback runs. -/
def promptObserverCallback (brushPrompt : HTMLElement) (st : PromptState) : PromptState :=
  let newText := trim brushPrompt.textContent
  if !newText.isEmpty && newText != st.currentText then
    { currentText := newText, world := handlePrompt newText st.world }
  else st

/-- Function `monitorBrushPrompt`, given the result of
`document.getElementById('brush-prompt')`. -/
def monitorBrushPrompt (brushPrompt : Option HTMLElement) (w : World) :
    Option PromptState × World :=
  match brushPrompt with
  | none =>
    let w := consoleLog (utf16 "未找到提示控件（brush-prompt）") w
    (none, w)
  | some brushPrompt =>
    let currentText := trim brushPrompt.textContent
    let w := if !currentText.isEmpty then handlePrompt currentText w else w
    (some { currentText := currentText, world := w }, w)

/-! ## The running script -/

/-- State of the script after start-up. `processedIds` is `none` when the
chat observer does not exist or is disconnected, `currentText` likewise for
the banner observer. -/
structure Session where
  processedIds : Option (List JSString)
  currentText : Option JSString
  world : World
deriving DecidableEq

/-- What the page can deliver to the running script. -/
inductive PageEvent where
  | chatMutations (mutations : List MutationRecord)
  | promptMutation (brushPrompt : HTMLElement)
  | beforeunload

/-- Start-up section of the script: `monitorChatItems()` then
`monitorBrushPrompt()`, given what the two `getElementById` lookups find. -/
def start (chatList brushPrompt : Option HTMLElement) (w : World) : Session :=
  let chat := monitorChatItems chatList w
  let prompt := monitorBrushPrompt brushPrompt chat.2
  { processedIds := chat.1.map fun st => st.processedIds
    currentText := prompt.1.map fun st => st.currentText
    world := prompt.2 }

/-- One delivery: a batch of chat mutations, a banner mutation notification,
or `beforeunload` (both observers are disconnected). An observer that does
not exist or is disconnected receives nothing. -/
def Session.step (s : Session) : PageEvent → Session
  | .chatMutations mutations =>
    match s.processedIds with
    | some ids =>
      let st := chatObserverCallback mutations { processedIds := ids, world := s.world }
      { s with processedIds := some st.processedIds, world := st.world }
    | none => s
  | .promptMutation brushPrompt =>
    match s.currentText with
    | some cur =>
      let st := promptObserverCallback brushPrompt { currentText := cur, world := s.world }
      { s with currentText := some st.currentText, world := st.world }
    | none => s
  | .beforeunload => { s with processedIds := none, currentText := none }

/-- The session after a sequence of deliveries. -/
def Session.run (s : Session) (events : List PageEvent) : Session :=
  events.foldl Session.step s

/-- The banner observer after a sequence of notifications, each with the
banner as it is at that time. -/
def promptRun (notifications : List HTMLElement) (st : PromptState) : PromptState :=
  notifications.foldl (fun s b => promptObserverCallback b s) st

/-! ## Notions used to state the properties -/

/-- Identity of a feed item: its `data-timestamp` attribute. -/
def identity (item : HTMLElement) : Option JSString :=
  item.data (utf16 "timestamp")

/-- Number of announcements (calls of `speakText`) that processing `item`
in state `st` makes. -/
def announcements (item : HTMLElement) (st : ChatState) : Nat :=
  (processDanmakuItem item st).world.speakCalls.length - st.world.speakCalls.length

/-- Number of announcements made for the items with identity `k` while the
sequence `items` is processed from state `st`. -/
def announcementsFor (k : JSString) : List HTMLElement → ChatState → Nat
  | [], _ => 0
  | item :: rest, st =>
    (if identity item = some k then announcements item st else 0)
      + announcementsFor k rest (processDanmakuItem item st)

/-- Speaker name as the specification words it: the `data-uname` attribute
when present and non-empty, else the fallback. -/
def specSpeakerName (item : HTMLElement) : JSString :=
  match item.data (utf16 "uname") with
  | some (u :: us) => u :: us
  | _ => utf16 "未知用户"

/-- Body as the specification words it: the `data-danmaku` attribute when
present and non-empty, else the trimmed text of the `.danmaku-item-right`
sub-element when it exists and that text is non-empty, else the fallback. -/
def specBody (item : HTMLElement) : JSString :=
  match item.data (utf16 "danmaku") with
  | some (b :: bs) => b :: bs
  | _ =>
    match item.querySelector danmakuRightSelector with
    | some right =>
      match trim right.textContent with
      | t :: ts => t :: ts
      | [] => utf16 "无内容"
    | none => utf16 "无内容"

/-- Proper-descendant relation between elements of the page tree. -/
inductive IsDescendant : HTMLElement → HTMLElement → Prop where
  | child {d e : HTMLElement} : d.toNode ∈ e.childNodes → IsDescendant d e
  | deeper {d m e : HTMLElement} : IsDescendant d m → m.toNode ∈ e.childNodes → IsDescendant d e

/-- Items the chat observer hands to `processDanmakuItem` for one added
node: the node itself when it is a matching element, the matching
descendants when it is an element that does not match, nothing otherwise. -/
def passedForNode (node : Node) : List HTMLElement :=
  match node.asElement? with
  | some e =>
    if e.matches chatItemSelector then [e]
    else e.descendants.filter fun d => d.matches chatItemSelector
  | none => []

/-- Items the chat observer hands to `processDanmakuItem` for a batch. -/
def passedForBatch (mutations : List MutationRecord) : List HTMLElement :=
  mutations.flatMap fun m => m.addedNodes.flatMap passedForNode

/-- Items that would be handed over if every matching element of an added
subtree were processed: the added node itself when it matches and all its
matching descendants. -/
def coveredForNode (node : Node) : List HTMLElement :=
  node.subtreeElements.filter fun d => d.matches chatItemSelector

/-- Counterpart of `passedForBatch` with full subtree coverage. -/
def coveredForBatch (mutations : List MutationRecord) : List HTMLElement :=
  mutations.flatMap fun m => m.addedNodes.flatMap coveredForNode

/-- The environment `w2` arises from `w1` by further calls of `speakText`,
each of them with a non-empty text. -/
def SpokeNonEmpty (w1 w2 : World) : Prop :=
  ∃ anns : List JSString, w2.speakCalls = w1.speakCalls ++ anns ∧ ∀ t ∈ anns, t ≠ []

/-! ## Concrete pages used in examples -/

/-- An environment with an available, idle synthesiser and empty logs. -/
def idleWorld : World :=
  { console := [], speechSynthesis := some [], speakCalls := [] }

/-- A feed item element with the given `data-*` attributes and children. -/
def feedItem (dataset : List (JSString × JSString)) (childNodes : List Node) : HTMLElement :=
  { classList := [utf16 "chat-item", utf16 "danmaku-item"], dataset := dataset,
    childNodes := childNodes }

/-- The feed item of scenario 3. -/
def item42 : HTMLElement :=
  feedItem [(utf16 "timestamp", utf16 "42"), (utf16 "uname", utf16 "VeryLongUserName123"),
    (utf16 "danmaku", utf16 "hello")] []

/-- A feed item without identity. -/
def anonymousItem : HTMLElement :=
  feedItem [(utf16 "uname", utf16 "bob"), (utf16 "danmaku", utf16 "hi")] []

/-- A feed item whose body comes from its `.danmaku-item-right` child. -/
def nestedTextItem : HTMLElement :=
  feedItem [(utf16 "timestamp", utf16 "7")]
    [.element [utf16 "danmaku-item-right"] [] [.text (utf16 "  hey "), .comment (utf16 "x")]]

/-- A banner element showing the given text. -/
def banner (text : String) : HTMLElement :=
  { classList := [], dataset := [], childNodes := [.text (utf16 text)] }

/-- A feed item that contains another feed item. -/
def outerItem : HTMLElement :=
  feedItem [(utf16 "timestamp", utf16 "1"), (utf16 "uname", utf16 "a"),
    (utf16 "danmaku", utf16 "x")] [item42.toNode]

/-- A wrapper element (not a feed item) around `outerItem`. -/
def wrappedOuter : HTMLElement :=
  { classList := [utf16 "group"], dataset := [], childNodes := [outerItem.toNode] }

/-- A chat list (`#chat-items`) that already holds `outerItem` at start-up. -/
def chatListWithOuter : HTMLElement :=
  { classList := [], dataset := [], childNodes := [outerItem.toNode] }


/-! ## Basic facts about the core functions -/

theorem utf16_said : utf16 "说：" = [0x8BF4, 0xFF1A] := by decide

theorem speakText_speakCalls (text : JSString) (w : World) :
    (speakText text w).speakCalls = w.speakCalls ++ [text] := by
  unfold speakText
  by_cases h : text.isEmpty = true
  · simp [h]
  · cases hq : w.speechSynthesis <;> simp [h, hq]

theorem speakText_console (text : JSString) (w : World) :
    (speakText text w).console = w.console := by
  unfold speakText
  by_cases h : text.isEmpty = true
  · simp [h]
  · cases hq : w.speechSynthesis <;> simp [h, hq]

theorem speakText_synth_some (text : JSString) (w : World)
    (queue : List SpeechSynthesisUtterance) (ht : text ≠ [])
    (hq : w.speechSynthesis = some queue) :
    (speakText text w).speechSynthesis =
      some [{ text := text, lang := utf16 "zh-CN", rateTenths := 12, pitch := 1, volume := 1 }] := by
  have h : text.isEmpty = false := by
    cases text with
    | nil => exact absurd rfl ht
    | cons _ _ => rfl
  simp [speakText, h, hq, synthSpeak, synthCancel]

theorem speakText_synth_none (text : JSString) (w : World) (hq : w.speechSynthesis = none) :
    (speakText text w).speechSynthesis = none := by
  unfold speakText
  by_cases h : text.isEmpty = true
  · simp [h, hq]
  · simp [h, hq]

theorem handleDanmaku_speakCalls (username content : JSString) (w : World) :
    (handleDanmaku username content w).speakCalls =
      w.speakCalls ++ [truncateUsername username ++ utf16 "说：" ++ content] := by
  simp [handleDanmaku, speakText_speakCalls, consoleLog]

theorem handlePrompt_speakCalls (message : JSString) (w : World) :
    (handlePrompt message w).speakCalls = w.speakCalls ++ [message] := by
  simp [handlePrompt, speakText_speakCalls, consoleLog]

theorem danmaku_message_ne_nil (username content : JSString) :
    truncateUsername username ++ utf16 "说：" ++ content ≠ [] := by
  rw [utf16_said]
  simp

theorem truncateUsername_eq_take (username : JSString) :
    truncateUsername username = username.take MAX_USERNAME_LENGTH := by
  unfold truncateUsername
  split
  · rfl
  · rename_i h
    exact (List.take_of_length_le (Nat.le_of_not_gt h)).symm

/-! ## Truncation (C3) -/

/-- C3. The text `handleDanmaku` announces is `truncateUsername name`, then
`说：`, then the body unchanged; it is what `speakText` is called with and,
when the synthesiser is available, the text of the single utterance it then
holds. A name longer than `MAX_USERNAME_LENGTH = 10` units contributes
exactly its first 10 units, a name that is not longer contributes itself,
and the body is the part of the text after the separator, whatever its
length. -/
theorem truncation (name body : JSString) (w : World) :
    (handleDanmaku name body w).speakCalls
        = w.speakCalls ++ [truncateUsername name ++ utf16 "说：" ++ body]
    ∧ (∀ queue, w.speechSynthesis = some queue →
        (handleDanmaku name body w).speechSynthesis
          = some [{ text := truncateUsername name ++ utf16 "说：" ++ body,
                    lang := utf16 "zh-CN", rateTenths := 12, pitch := 1, volume := 1 }])
    ∧ MAX_USERNAME_LENGTH = 10
    ∧ (name.length > MAX_USERNAME_LENGTH →
        truncateUsername name = name.take 10 ∧ (truncateUsername name).length = 10)
    ∧ (name.length ≤ MAX_USERNAME_LENGTH → truncateUsername name = name)
    ∧ (truncateUsername name ++ utf16 "说：" ++ body).drop
        ((truncateUsername name).length + 2) = body := by
  refine ⟨handleDanmaku_speakCalls name body w, ?_, rfl, ?_, ?_, ?_⟩
  · intro queue hq
    unfold handleDanmaku
    exact speakText_synth_some _ _ queue (danmaku_message_ne_nil name body)
      (by simpa [consoleLog] using hq)
  · intro h
    have h10 : (10 : Nat) ≤ name.length := by
      have : MAX_USERNAME_LENGTH = 10 := rfl
      omega
    rw [truncateUsername_eq_take]
    exact ⟨rfl, by simp [MAX_USERNAME_LENGTH, h10]⟩
  · intro h
    rw [truncateUsername_eq_take]
    exact List.take_of_length_le h
  · rw [utf16_said]
    simp

/-- Witness for C3 at a 19-unit name and a 5-unit body. -/
theorem truncation_witness :
    (handleDanmaku (utf16 "VeryLongUserName123") (utf16 "hello") idleWorld).speakCalls
        = [utf16 "VeryLongUs" ++ utf16 "说：" ++ utf16 "hello"]
    ∧ (truncateUsername (utf16 "VeryLongUserName123")).length = 10
    ∧ truncateUsername (utf16 "bob") = utf16 "bob" := by
  have h := truncation (utf16 "VeryLongUserName123") (utf16 "hello") idleWorld
  have hb := truncation (utf16 "bob") (utf16 "hello") idleWorld
  refine ⟨?_, (h.2.2.2.1 (by decide)).2, hb.2.2.2.2.1 (by decide)⟩
  rw [h.1, (h.2.2.2.1 (by decide)).1]
  decide


/-! ## Facts about `processDanmakuItem` -/

theorem alreadyProcessed_eq_true (ids : List JSString) (t : Option JSString) :
    alreadyProcessed ids t = true ↔ ∃ k, t = some k ∧ k ≠ [] ∧ k ∈ ids := by
  cases t with
  | none => simp [alreadyProcessed]
  | some ts =>
    cases ts with
    | nil => simp [alreadyProcessed]
    | cons a as => simp [alreadyProcessed]

theorem processDanmakuItem_seen (item : HTMLElement) (st : ChatState)
    (h : alreadyProcessed st.processedIds (identity item) = true) :
    processDanmakuItem item st = st := by
  unfold identity at h
  simp [processDanmakuItem, h]

theorem processDanmakuItem_fresh (item : HTMLElement) (st : ChatState)
    (h : alreadyProcessed st.processedIds (identity item) = false) :
    processDanmakuItem item st =
      { processedIds := recordProcessed st.processedIds (identity item)
        world := handleDanmaku
          (orString (item.data (utf16 "uname")) (utf16 "未知用户"))
          (orString
            (orOption (item.data (utf16 "danmaku"))
              ((item.querySelector danmakuRightSelector).map fun right =>
                trim right.textContent))
            (utf16 "无内容"))
          st.world } := by
  unfold identity at h
  simp [processDanmakuItem, h, identity]

theorem announcements_seen (item : HTMLElement) (st : ChatState)
    (h : alreadyProcessed st.processedIds (identity item) = true) :
    announcements item st = 0 := by
  simp [announcements, processDanmakuItem_seen item st h]

theorem announcements_fresh (item : HTMLElement) (st : ChatState)
    (h : alreadyProcessed st.processedIds (identity item) = false) :
    announcements item st = 1 := by
  simp [announcements, processDanmakuItem_fresh item st h, handleDanmaku_speakCalls]

theorem recordProcessed_some (ids : List JSString) (ts : JSString) :
    recordProcessed ids (some ts) =
      if ts = [] then ids else if ts ∈ ids then ids else ids ++ [ts] := by
  cases ts with
  | nil => simp [recordProcessed]
  | cons a as => simp [recordProcessed]

theorem mem_recordProcessed_iff (ids : List JSString) (t : Option JSString) (k : JSString) :
    k ∈ recordProcessed ids t ↔ k ∈ ids ∨ (t = some k ∧ k ≠ []) := by
  cases t with
  | none => simp [recordProcessed]
  | some ts =>
    rw [recordProcessed_some]
    by_cases he : ts = []
    · subst he
      simp only [if_true]
      constructor
      · exact Or.inl
      · rintro (h | ⟨h1, h2⟩)
        · exact h
        · cases h1
          exact absurd rfl h2
    · by_cases hc : ts ∈ ids
      · simp only [he, hc, if_true, if_false]
        constructor
        · exact Or.inl
        · rintro (h | ⟨h1, _⟩)
          · exact h
          · cases h1
            exact hc
      · simp only [he, hc, if_false, List.mem_append, List.mem_singleton]
        constructor
        · rintro (h | h)
          · exact Or.inl h
          · subst h
            exact Or.inr ⟨rfl, he⟩
        · rintro (h | ⟨h1, _⟩)
          · exact Or.inl h
          · cases h1
            exact Or.inr rfl

theorem mem_recordProcessed_of_mem (ids : List JSString) (t : Option JSString) (k : JSString)
    (h : k ∈ ids) : k ∈ recordProcessed ids t :=
  (mem_recordProcessed_iff ids t k).2 (Or.inl h)

theorem processDanmakuItem_mem_mono (item : HTMLElement) (st : ChatState) (k : JSString)
    (h : k ∈ st.processedIds) : k ∈ (processDanmakuItem item st).processedIds := by
  cases hs : alreadyProcessed st.processedIds (identity item) with
  | true => rw [processDanmakuItem_seen item st hs]; exact h
  | false =>
    rw [processDanmakuItem_fresh item st hs]
    exact mem_recordProcessed_of_mem _ _ _ h

theorem processDanmakuItem_mem_iff (item : HTMLElement) (st : ChatState) (k : JSString) :
    k ∈ (processDanmakuItem item st).processedIds ↔
      k ∈ st.processedIds ∨ (identity item = some k ∧ k ≠ []) := by
  cases hs : alreadyProcessed st.processedIds (identity item) with
  | true =>
    rw [processDanmakuItem_seen item st hs]
    constructor
    · exact Or.inl
    · rintro (h | ⟨hid, _⟩)
      · exact h
      · obtain ⟨k2, hk2, _, hmem⟩ := (alreadyProcessed_eq_true _ _).1 hs
        rw [hid] at hk2
        cases hk2
        exact hmem
  | false =>
    rw [processDanmakuItem_fresh item st hs]
    exact mem_recordProcessed_iff _ _ _

theorem processAll_nil (st : ChatState) : processAll [] st = st := rfl

theorem processAll_cons (item : HTMLElement) (items : List HTMLElement) (st : ChatState) :
    processAll (item :: items) st = processAll items (processDanmakuItem item st) := rfl

theorem processAll_append (xs ys : List HTMLElement) (st : ChatState) :
    processAll (xs ++ ys) st = processAll ys (processAll xs st) := by
  simp [processAll, List.foldl_append]

theorem processAll_mem_iff (items : List HTMLElement) (st : ChatState) (k : JSString) :
    k ∈ (processAll items st).processedIds ↔
      k ∈ st.processedIds ∨ (k ≠ [] ∧ ∃ item ∈ items, identity item = some k) := by
  induction items generalizing st with
  | nil => simp [processAll_nil]
  | cons item rest ih =>
    rw [processAll_cons, ih, processDanmakuItem_mem_iff]
    constructor
    · rintro ((h | ⟨hid, hk⟩) | ⟨hk, x, hx, hid⟩)
      · exact Or.inl h
      · exact Or.inr ⟨hk, item, List.mem_cons_self _ _, hid⟩
      · exact Or.inr ⟨hk, x, List.mem_cons_of_mem _ hx, hid⟩
    · rintro (h | ⟨hk, x, hx, hid⟩)
      · exact Or.inl (Or.inl h)
      · rcases List.mem_cons.1 hx with rfl | hx
        · exact Or.inl (Or.inr ⟨hid, hk⟩)
        · exact Or.inr ⟨hk, x, hx, hid⟩

theorem announcementsFor_of_mem (k : JSString) (hk : k ≠ []) (items : List HTMLElement)
    (st : ChatState) (h : k ∈ st.processedIds) : announcementsFor k items st = 0 := by
  induction items generalizing st with
  | nil => rfl
  | cons item rest ih =>
    unfold announcementsFor
    rw [ih _ (processDanmakuItem_mem_mono item st k h)]
    by_cases hid : identity item = some k
    · have hs : alreadyProcessed st.processedIds (identity item) = true :=
        (alreadyProcessed_eq_true _ _).2 ⟨k, hid, hk, h⟩
      simp [hid, announcements_seen item st hs]
    · simp [hid]

theorem announcementsFor_of_not_mem (k : JSString) (hk : k ≠ []) (items : List HTMLElement)
    (st : ChatState) (h : k ∉ st.processedIds)
    (hocc : ∃ item ∈ items, identity item = some k) : announcementsFor k items st = 1 := by
  induction items generalizing st with
  | nil => obtain ⟨x, hx, _⟩ := hocc; cases hx
  | cons item rest ih =>
    unfold announcementsFor
    by_cases hid : identity item = some k
    · have hs : alreadyProcessed st.processedIds (identity item) = false := by
        cases hb : alreadyProcessed st.processedIds (identity item) with
        | false => rfl
        | true =>
          obtain ⟨k2, hk2, _, hmem⟩ := (alreadyProcessed_eq_true _ _).1 hb
          rw [hid] at hk2
          cases hk2
          exact absurd hmem h
      have hin : k ∈ (processDanmakuItem item st).processedIds :=
        (processDanmakuItem_mem_iff item st k).2 (Or.inr ⟨hid, hk⟩)
      rw [announcementsFor_of_mem k hk rest _ hin]
      simp [hid, announcements_fresh item st hs]
    · have hnot : k ∉ (processDanmakuItem item st).processedIds := by
        intro hin
        rcases (processDanmakuItem_mem_iff item st k).1 hin with h1 | ⟨h2, _⟩
        · exact h h1
        · exact hid h2
      have hocc2 : ∃ x ∈ rest, identity x = some k := by
        obtain ⟨x, hx, hxid⟩ := hocc
        rcases List.mem_cons.1 hx with rfl | hx
        · exact absurd hxid hid
        · exact ⟨x, hx, hxid⟩
      rw [ih _ hnot hocc2]
      simp [hid]


theorem alreadyProcessed_of_no_identity (ids : List JSString) (t : Option JSString)
    (h : t = none ∨ t = some []) : alreadyProcessed ids t = false := by
  rcases h with rfl | rfl <;> simp [alreadyProcessed]

theorem recordProcessed_of_no_identity (ids : List JSString) (t : Option JSString)
    (h : t = none ∨ t = some []) : recordProcessed ids t = ids := by
  rcases h with rfl | rfl <;> simp [recordProcessed]

theorem processDanmakuItem_no_identity (item : HTMLElement) (st : ChatState)
    (h : identity item = none ∨ identity item = some []) :
    (processDanmakuItem item st).processedIds = st.processedIds
    ∧ (processDanmakuItem item st).world.speakCalls.length
        = st.world.speakCalls.length + 1 := by
  rw [processDanmakuItem_fresh item st (alreadyProcessed_of_no_identity _ _ h)]
  exact ⟨recordProcessed_of_no_identity _ _ h, by simp [handleDanmaku_speakCalls]⟩

theorem processAll_no_identity (items : List HTMLElement) (st : ChatState)
    (h : ∀ x ∈ items, identity x = none ∨ identity x = some []) :
    (processAll items st).processedIds = st.processedIds
    ∧ (processAll items st).world.speakCalls.length
        = st.world.speakCalls.length + items.length := by
  induction items generalizing st with
  | nil => simp [processAll_nil]
  | cons item rest ih =>
    have h1 := processDanmakuItem_no_identity item st (h item (List.mem_cons_self _ _))
    have h2 := ih (processDanmakuItem item st) fun x hx => h x (List.mem_cons_of_mem _ hx)
    rw [processAll_cons]
    refine ⟨h2.1.trans h1.1, ?_⟩
    rw [h2.2, h1.2, List.length_cons]
    omega

/-! ## Items without identity (C2) -/

/-- C2. A feed item whose `data-timestamp` is absent or empty is announced
exactly once by `processDanmakuItem` in every state, and `processedIds` is
left unchanged; hence processing any sequence of `n` such items (identical
to each other or not) makes `n` announcements. -/
theorem no_identity_passthrough (st : ChatState) (item : HTMLElement)
    (h : identity item = none ∨ identity item = some []) :
    (∃ text, (processDanmakuItem item st).world.speakCalls = st.world.speakCalls ++ [text])
    ∧ announcements item st = 1
    ∧ (processDanmakuItem item st).processedIds = st.processedIds
    ∧ ∀ items : List HTMLElement,
        (∀ x ∈ items, identity x = none ∨ identity x = some []) →
        (processAll items st).world.speakCalls.length
          = st.world.speakCalls.length + items.length
        ∧ (processAll items st).processedIds = st.processedIds := by
  have hs := alreadyProcessed_of_no_identity st.processedIds _ h
  refine ⟨?_, announcements_fresh item st hs, (processDanmakuItem_no_identity item st h).1, ?_⟩
  · rw [processDanmakuItem_fresh item st hs]
    exact ⟨_, handleDanmaku_speakCalls _ _ _⟩
  · intro items hall
    have := processAll_no_identity items st hall
    exact ⟨this.2, this.1⟩

/-- Witness for C2: three identical items without identity give three
announcements, in a state that already holds an identity. -/
theorem no_identity_passthrough_witness :
    (processAll [anonymousItem, anonymousItem, anonymousItem]
        { processedIds := [utf16 "42"], world := idleWorld }).world.speakCalls.length
      = idleWorld.speakCalls.length + 3 :=
  ((no_identity_passthrough { processedIds := [utf16 "42"], world := idleWorld }
    anonymousItem (Or.inl (by decide))).2.2.2 [anonymousItem, anonymousItem, anonymousItem]
    (by decide)).1


/-! ## Scenario 3 (C4) -/

/-- C4, amended. Processing a feed item with identity `42`, speaker name
`VeryLongUserName123` and body `hello` from an empty ledger announces exactly
`VeryLongUs说：hello` (the name cut to its first 10 units) and leaves
`processedIds` holding `42`. -/
theorem scenario3_announcement (item : HTMLElement) (w : World)
    (hid : identity item = some (utf16 "42"))
    (hname : item.data (utf16 "uname") = some (utf16 "VeryLongUserName123"))
    (hbody : item.data (utf16 "danmaku") = some (utf16 "hello")) :
    (processDanmakuItem item { processedIds := [], world := w }).world.speakCalls
        = w.speakCalls ++ [utf16 "VeryLongUs说：hello"]
    ∧ (processDanmakuItem item { processedIds := [], world := w }).processedIds
        = [utf16 "42"] := by
  have hs : alreadyProcessed
      ({ processedIds := [], world := w } : ChatState).processedIds (identity item) = false := by
    rw [hid]
    show alreadyProcessed [] (some (utf16 "42")) = false
    decide
  rw [processDanmakuItem_fresh item _ hs, hid, hname, hbody]
  refine ⟨?_, show recordProcessed [] (some (utf16 "42")) = [utf16 "42"] by decide⟩
  have hu : orString (some (utf16 "VeryLongUserName123")) (utf16 "未知用户")
      = utf16 "VeryLongUserName123" := by decide
  have hc : ∀ o : Option JSString,
      orString (orOption (some (utf16 "hello")) o) (utf16 "无内容") = utf16 "hello" := by
    intro o
    have : orOption (some (utf16 "hello")) o = some (utf16 "hello") := by
      simp [orOption, truthy, show (utf16 "hello").isEmpty = false by decide]
    rw [this]
    decide
  simp only [hu, hc, handleDanmaku_speakCalls]
  have : truncateUsername (utf16 "VeryLongUserName123") ++ utf16 "说：" ++ utf16 "hello"
      = utf16 "VeryLongUs说：hello" := by decide
  rw [this]

/-- Witness for the amended C4 at the element `item42`. -/
theorem scenario3_announcement_witness :
    (processDanmakuItem item42 { processedIds := [], world := idleWorld }).world.speakCalls
        = idleWorld.speakCalls ++ [utf16 "VeryLongUs说：hello"]
    ∧ (processDanmakuItem item42 { processedIds := [], world := idleWorld }).processedIds
        = [utf16 "42"] :=
  scenario3_announcement item42 idleWorld (by decide) (by decide) (by decide)

/-- C4 as stated fails: for the item of scenario 3 the announced text is not
`VeryLongUse说：hello`, whose name part has 11 units. -/
theorem scenario3_counterexample :
    ¬ ((processDanmakuItem item42 { processedIds := [], world := idleWorld }).world.speakCalls
          = [utf16 "VeryLongUse说：hello"]
        ∧ utf16 "42" ∈
          (processDanmakuItem item42 { processedIds := [], world := idleWorld }).processedIds) := by
  decide

/-! ## Speech dispatch (C6) -/

/-- C6. With the synthesiser available, whatever it holds, `speakText A`
leaves it holding exactly the one utterance for `A`, and a following
`speakText B` leaves it holding exactly the one utterance for `B`: each call
cancels before it submits, so nothing stays queued behind or ahead of the
latest text. -/
theorem latest_wins (w : World) (queue : List SpeechSynthesisUtterance) (A B : JSString)
    (hA : A ≠ []) (hB : B ≠ []) (havail : w.speechSynthesis = some queue) :
    (speakText A w).speechSynthesis
        = some [{ text := A, lang := utf16 "zh-CN", rateTenths := 12, pitch := 1, volume := 1 }]
    ∧ (speakText B (speakText A w)).speechSynthesis
        = some [{ text := B, lang := utf16 "zh-CN", rateTenths := 12, pitch := 1, volume := 1 }] := by
  have h1 := speakText_synth_some A w queue hA havail
  exact ⟨h1, speakText_synth_some B (speakText A w) _ hB h1⟩

/-- Witness for C6: two announcements sent to a synthesiser that is already
speaking and has one utterance pending. -/
theorem latest_wins_witness :
    (speakText (utf16 "B") (speakText (utf16 "A")
        { console := [], speakCalls := [],
          speechSynthesis := some
            [{ text := utf16 "old", lang := utf16 "zh-CN", rateTenths := 12, pitch := 1,
               volume := 1 },
             { text := utf16 "older", lang := utf16 "zh-CN", rateTenths := 12, pitch := 1,
               volume := 1 }] })).speechSynthesis
      = some [{ text := utf16 "B", lang := utf16 "zh-CN", rateTenths := 12, pitch := 1,
                volume := 1 }] :=
  (latest_wins _ _ (utf16 "A") (utf16 "B") (by decide) (by decide) rfl).2


/-! ## Banner monitor (C5, C9) -/

theorem promptObserverCallback_discard (b : HTMLElement) (st : PromptState)
    (h : trim b.textContent = [] ∨ trim b.textContent = st.currentText) :
    promptObserverCallback b st = st := by
  unfold promptObserverCallback
  rcases h with h | h
  · simp [h]
  · simp [h]

theorem promptObserverCallback_change (b : HTMLElement) (st : PromptState)
    (h1 : trim b.textContent ≠ []) (h2 : trim b.textContent ≠ st.currentText) :
    promptObserverCallback b st =
      { currentText := trim b.textContent
        world := handlePrompt (trim b.textContent) st.world } := by
  unfold promptObserverCallback
  simp [h1, h2]

theorem promptRun_nil (st : PromptState) : promptRun [] st = st := rfl

theorem promptRun_cons (b : HTMLElement) (bs : List HTMLElement) (st : PromptState) :
    promptRun (b :: bs) st = promptRun bs (promptObserverCallback b st) := rfl

theorem promptRun_same (later : List HTMLElement) (st : PromptState)
    (h : ∀ b ∈ later, trim b.textContent = st.currentText) : promptRun later st = st := by
  induction later with
  | nil => rfl
  | cons b bs ih =>
    rw [promptRun_cons,
      promptObserverCallback_discard b st (Or.inr (h b (List.mem_cons_self _ _)))]
    exact ih fun x hx => h x (List.mem_cons_of_mem _ hx)

theorem monitorBrushPrompt_some (b : HTMLElement) (w : World) :
    monitorBrushPrompt (some b) w =
      (some { currentText := trim b.textContent
              world := if trim b.textContent = [] then w
                       else handlePrompt (trim b.textContent) w },
       if trim b.textContent = [] then w else handlePrompt (trim b.textContent) w) := by
  unfold monitorBrushPrompt
  by_cases h : trim b.textContent = []
  · simp [h]
  · simp [h]

/-- C5. A mutation notification at which the trimmed banner text equals
`currentText` changes nothing: no announcement, same `currentText`, same
environment; so does any run of such notifications. In particular, after a
start on a banner reading `loading` (which announces `loading` once), any
number of notifications with the banner still reading `loading` add no
announcement. -/
theorem banner_change_only (st : PromptState) (brushPrompt : HTMLElement)
    (h : trim brushPrompt.textContent = st.currentText) :
    promptObserverCallback brushPrompt st = st
    ∧ (∀ later : List HTMLElement, (∀ b ∈ later, trim b.textContent = st.currentText) →
        promptRun later st = st)
    ∧ ∀ (first : HTMLElement) (later : List HTMLElement) (w : World),
        trim first.textContent = utf16 "loading" →
        (∀ b ∈ later, trim b.textContent = utf16 "loading") →
        ∃ st0, monitorBrushPrompt (some first) w = (some st0, st0.world)
          ∧ st0.world.speakCalls = w.speakCalls ++ [utf16 "loading"]
          ∧ promptRun later st0 = st0
          ∧ (promptRun later st0).world.speakCalls = w.speakCalls ++ [utf16 "loading"] := by
  refine ⟨promptObserverCallback_discard _ _ (Or.inr h), fun later => promptRun_same later st, ?_⟩
  intro first later w hfirst hlater
  have hne : utf16 "loading" ≠ [] := by decide
  refine ⟨{ currentText := utf16 "loading", world := handlePrompt (utf16 "loading") w },
    ?_, handlePrompt_speakCalls _ _, ?_, ?_⟩
  · rw [monitorBrushPrompt_some, hfirst]
    simp [hne]
  · exact promptRun_same later _ hlater
  · rw [promptRun_same later _ hlater]
    exact handlePrompt_speakCalls _ _

/-- Witness for C5: scenario 2, a banner reading `loading` (with
surrounding blanks) notified while `currentText` is `loading`. -/
theorem banner_change_only_witness :
    promptObserverCallback (banner " loading ")
        { currentText := utf16 "loading", world := idleWorld }
      = { currentText := utf16 "loading", world := idleWorld } :=
  (banner_change_only { currentText := utf16 "loading", world := idleWorld }
    (banner " loading ") (by decide)).1

theorem promptRun_invariant (w : World) (notifications : List HTMLElement)
    (st : PromptState) (anns : List JSString)
    (hcalls : st.world.speakCalls = w.speakCalls ++ anns)
    (hcur : st.currentText = anns.getLast?.getD []) :
    ∃ anns2, (promptRun notifications st).world.speakCalls = w.speakCalls ++ anns2
      ∧ (promptRun notifications st).currentText = anns2.getLast?.getD [] := by
  induction notifications generalizing st anns with
  | nil => exact ⟨anns, hcalls, hcur⟩
  | cons b bs ih =>
    rw [promptRun_cons]
    by_cases hd : trim b.textContent = [] ∨ trim b.textContent = st.currentText
    · rw [promptObserverCallback_discard b st hd]
      exact ih st anns hcalls hcur
    · have h1 : trim b.textContent ≠ [] := fun h => hd (Or.inl h)
      have h2 : trim b.textContent ≠ st.currentText := fun h => hd (Or.inr h)
      rw [promptObserverCallback_change b st h1 h2]
      refine ih _ (anns ++ [trim b.textContent]) ?_ ?_
      · simp [handlePrompt_speakCalls, hcalls]
      · simp

/-- C9. From the start of the banner watcher on any banner and through any
sequence of mutation notifications (any texts, empty and blank ones
included), `currentText` is the text of the most recent banner announcement
(and is empty as long as there has been none). A notification changes
`currentText` only when its trimmed text is non-empty and differs from it,
and that notification then announces exactly the new value; every other
notification leaves the whole state as it is. -/
theorem current_banner_text (first : HTMLElement) (notifications : List HTMLElement)
    (w : World) (st : PromptState) (b : HTMLElement) :
    (∃ st0 anns, monitorBrushPrompt (some first) w = (some st0, st0.world)
      ∧ (promptRun notifications st0).world.speakCalls = w.speakCalls ++ anns
      ∧ (promptRun notifications st0).currentText = anns.getLast?.getD [])
    ∧ ((promptObserverCallback b st).currentText ≠ st.currentText →
        trim b.textContent ≠ [] ∧ trim b.textContent ≠ st.currentText
        ∧ (promptObserverCallback b st).currentText = trim b.textContent
        ∧ (promptObserverCallback b st).world.speakCalls
            = st.world.speakCalls ++ [trim b.textContent])
    ∧ ((promptObserverCallback b st).currentText = st.currentText →
        promptObserverCallback b st = st) := by
  refine ⟨?_, ?_, ?_⟩
  · rw [monitorBrushPrompt_some]
    by_cases h : trim first.textContent = []
    · obtain ⟨anns, h1, h2⟩ := promptRun_invariant w notifications
        { currentText := trim first.textContent, world := w } [] (by simp) (by simp [h])
      refine ⟨{ currentText := trim first.textContent, world := w }, anns, ?_, h1, h2⟩
      simp [h]
    · obtain ⟨anns, h1, h2⟩ := promptRun_invariant w notifications
        { currentText := trim first.textContent
          world := handlePrompt (trim first.textContent) w }
        [trim first.textContent] (by simp [handlePrompt_speakCalls]) (by simp)
      refine ⟨{ currentText := trim first.textContent
                world := handlePrompt (trim first.textContent) w }, anns, ?_, h1, h2⟩
      simp [h]
  · intro hchg
    by_cases hd : trim b.textContent = [] ∨ trim b.textContent = st.currentText
    · rw [promptObserverCallback_discard b st hd] at hchg
      exact absurd rfl hchg
    · have h1 : trim b.textContent ≠ [] := fun h => hd (Or.inl h)
      have h2 : trim b.textContent ≠ st.currentText := fun h => hd (Or.inr h)
      rw [promptObserverCallback_change b st h1 h2]
      exact ⟨h1, h2, rfl, handlePrompt_speakCalls _ _⟩
  · intro hsame
    by_cases hd : trim b.textContent = [] ∨ trim b.textContent = st.currentText
    · exact promptObserverCallback_discard b st hd
    · have h1 : trim b.textContent ≠ [] := fun h => hd (Or.inl h)
      have h2 : trim b.textContent ≠ st.currentText := fun h => hd (Or.inr h)
      rw [promptObserverCallback_change b st h1 h2] at hsame
      exact absurd hsame h2

/-- Witness for C9: a banner going from `loading` to `live`. -/
theorem current_banner_text_witness :
    (promptObserverCallback (banner "live")
        { currentText := utf16 "loading", world := idleWorld }).currentText = utf16 "live"
    ∧ (promptObserverCallback (banner "live")
        { currentText := utf16 "loading", world := idleWorld }).world.speakCalls
        = idleWorld.speakCalls ++ [utf16 "live"] :=
  have h := (current_banner_text (banner "loading") [banner "live"] idleWorld
    { currentText := utf16 "loading", world := idleWorld } (banner "live")).2.1 (by decide)
  ⟨by rw [h.2.2.1]; decide, by rw [h.2.2.2]; decide⟩


/-! ## Field extraction (C8) -/

theorem orString_uname_eq_spec (item : HTMLElement) :
    orString (item.data (utf16 "uname")) (utf16 "未知用户") = specSpeakerName item := by
  unfold specSpeakerName orString
  cases item.data (utf16 "uname") with
  | none => rfl
  | some u =>
    cases u with
    | nil => rfl
    | cons a as => rfl

theorem orString_body_eq_spec (item : HTMLElement) :
    orString
      (orOption (item.data (utf16 "danmaku"))
        ((item.querySelector danmakuRightSelector).map fun right => trim right.textContent))
      (utf16 "无内容") = specBody item := by
  unfold specBody
  cases item.data (utf16 "danmaku") with
  | none =>
    cases item.querySelector danmakuRightSelector with
    | none => rfl
    | some right =>
      cases h : trim right.textContent with
      | nil => simp [orOption, truthy, orString, h]
      | cons a as => simp [orOption, truthy, orString, h]
  | some d =>
    cases d with
    | nil =>
      cases item.querySelector danmakuRightSelector with
      | none => rfl
      | some right =>
        cases h : trim right.textContent with
        | nil => simp [orOption, truthy, orString, h]
        | cons a as => simp [orOption, truthy, orString, h]
    | cons a as => simp [orOption, truthy, orString]

/-- C8. Processing a feed item always yields a state (the function is total
on elements, no field is required): a duplicate leaves the state as it is,
and any other item is announced with the speaker name and body extracted in
this order: the name is `data-uname` when present
and non-empty, else `未知用户`; the body is `data-danmaku` when present and
non-empty, else the trimmed text of the first `.danmaku-item-right`
descendant when there is one and that text is non-empty, else `无内容`. -/
theorem missing_field_fallback (item : HTMLElement) (st : ChatState) :
    (alreadyProcessed st.processedIds (identity item) = true →
      processDanmakuItem item st = st)
    ∧ (alreadyProcessed st.processedIds (identity item) = false →
      (processDanmakuItem item st).world.speakCalls
        = st.world.speakCalls
          ++ [truncateUsername (specSpeakerName item) ++ utf16 "说：" ++ specBody item])
    ∧ (∀ u, item.data (utf16 "uname") = some u → u ≠ [] → specSpeakerName item = u)
    ∧ (item.data (utf16 "uname") = none ∨ item.data (utf16 "uname") = some [] →
        specSpeakerName item = utf16 "未知用户")
    ∧ (∀ d, item.data (utf16 "danmaku") = some d → d ≠ [] → specBody item = d)
    ∧ (item.data (utf16 "danmaku") = none ∨ item.data (utf16 "danmaku") = some [] →
        (∀ right, item.querySelector danmakuRightSelector = some right →
            trim right.textContent ≠ [] → specBody item = trim right.textContent)
        ∧ (∀ right, item.querySelector danmakuRightSelector = some right →
            trim right.textContent = [] → specBody item = utf16 "无内容")
        ∧ (item.querySelector danmakuRightSelector = none →
            specBody item = utf16 "无内容")) := by
  refine ⟨processDanmakuItem_seen item st, ?_, ?_, ?_, ?_, ?_⟩
  · intro hnew
    rw [processDanmakuItem_fresh item st hnew, orString_uname_eq_spec, orString_body_eq_spec]
    exact handleDanmaku_speakCalls _ _ _
  · intro u hu hne
    unfold specSpeakerName
    rw [hu]
    cases u with
    | nil => exact absurd rfl hne
    | cons a as => rfl
  · intro h
    unfold specSpeakerName
    rcases h with h | h <;> rw [h]
  · intro d hd hne
    unfold specBody
    rw [hd]
    cases d with
    | nil => exact absurd rfl hne
    | cons a as => rfl
  · intro h
    have hspec : specBody item =
        match item.querySelector danmakuRightSelector with
        | some right =>
          match trim right.textContent with
          | t :: ts => t :: ts
          | [] => utf16 "无内容"
        | none => utf16 "无内容" := by
      unfold specBody
      rcases h with h | h <;> rw [h]
    refine ⟨?_, ?_, ?_⟩
    · intro right hr hne
      rw [hspec, hr]
      show (match trim right.textContent with
        | t :: ts => t :: ts
        | [] => utf16 "无内容") = trim right.textContent
      cases ht : trim right.textContent with
      | nil => exact absurd ht hne
      | cons a as => rfl
    · intro right hr he
      rw [hspec, hr]
      show (match trim right.textContent with
        | t :: ts => t :: ts
        | [] => utf16 "无内容") = utf16 "无内容"
      rw [he]
    · intro hr
      rw [hspec, hr]

/-- Witness for C8: an item with neither `data-uname` nor `data-danmaku`
whose `.danmaku-item-right` child reads `hey` between blanks. -/
theorem missing_field_fallback_witness :
    (processDanmakuItem nestedTextItem
        { processedIds := [], world := idleWorld }).world.speakCalls
      = idleWorld.speakCalls ++ [truncateUsername (specSpeakerName nestedTextItem)
          ++ utf16 "说：" ++ specBody nestedTextItem]
    ∧ specSpeakerName nestedTextItem = utf16 "未知用户"
    ∧ specBody nestedTextItem = utf16 "hey" :=
  have h := missing_field_fallback nestedTextItem
    { processedIds := [], world := idleWorld }
  ⟨h.2.1 (by decide), h.2.2.2.1 (Or.inl (by decide)), by decide⟩


/-! ## Insertion batches (C10) -/

theorem subtreeElements_toNode (e : HTMLElement) :
    e.toNode.subtreeElements = e :: e.descendants := by
  cases e with
  | mk c d ks => simp [HTMLElement.toNode, Node.subtreeElements, HTMLElement.descendants]

theorem elementsOfList_cons (c : Node) (cs : List Node) :
    elementsOfList (c :: cs) = c.subtreeElements ++ elementsOfList cs := by
  simp [elementsOfList]

theorem mem_elementsOfList_iff (d : HTMLElement) (cs : List Node) :
    d ∈ elementsOfList cs ↔ ∃ c ∈ cs, d ∈ c.subtreeElements := by
  induction cs with
  | nil => simp [elementsOfList]
  | cons c cs ih => simp [elementsOfList_cons, ih]

theorem mem_subtreeElements_cases (d : HTMLElement) (n : Node)
    (h : d ∈ n.subtreeElements) :
    ∃ e : HTMLElement, e.toNode = n ∧ (d = e ∨ d ∈ e.descendants) := by
  cases n with
  | text s => simp [Node.subtreeElements] at h
  | comment s => simp [Node.subtreeElements] at h
  | element c ds ks =>
    refine ⟨⟨c, ds, ks⟩, rfl, ?_⟩
    simpa [Node.subtreeElements, HTMLElement.descendants] using h

theorem mem_descendants_of_isDescendant {d e : HTMLElement} (h : IsDescendant d e) :
    d ∈ e.descendants := by
  induction h with
  | @child e hmem =>
    exact (mem_elementsOfList_iff _ _).2
      ⟨d.toNode, hmem, by rw [subtreeElements_toNode]; exact List.mem_cons_self _ _⟩
  | @deeper m e _ hmem ih =>
    exact (mem_elementsOfList_iff _ _).2
      ⟨m.toNode, hmem, by rw [subtreeElements_toNode]; exact List.mem_cons_of_mem _ ih⟩

mutual
theorem isDescendant_of_mem_subtree (d : HTMLElement) :
    (n : Node) → d ∈ n.subtreeElements →
      ∃ e : HTMLElement, e.toNode = n ∧ (d = e ∨ IsDescendant d e)
  | .text s, h => by simp [Node.subtreeElements] at h
  | .comment s, h => by simp [Node.subtreeElements] at h
  | .element c ds ks, h => by
    refine ⟨⟨c, ds, ks⟩, rfl, ?_⟩
    have h2 : d = ⟨c, ds, ks⟩ ∨ d ∈ elementsOfList ks := by
      simpa [Node.subtreeElements] using h
    rcases h2 with h2 | h2
    · exact Or.inl h2
    · exact Or.inr (isDescendant_of_mem_list d ks h2 ⟨c, ds, ks⟩ (fun x hx => hx))
theorem isDescendant_of_mem_list (d : HTMLElement) :
    (cs : List Node) → d ∈ elementsOfList cs →
      ∀ e : HTMLElement, (∀ x ∈ cs, x ∈ e.childNodes) → IsDescendant d e
  | [], h, _, _ => by simp [elementsOfList] at h
  | c :: cs, h, e, hsub => by
    rw [elementsOfList_cons] at h
    rcases List.mem_append.1 h with h | h
    · obtain ⟨m, hm, hd⟩ := isDescendant_of_mem_subtree d c h
      have hc : m.toNode ∈ e.childNodes := by
        rw [hm]; exact hsub c (List.mem_cons_self _ _)
      rcases hd with hd | hd
      · rw [hd]; exact IsDescendant.child hc
      · exact IsDescendant.deeper hd hc
    · exact isDescendant_of_mem_list d cs h e
        (fun x hx => hsub x (List.mem_cons_of_mem _ hx))
end

theorem mem_descendants_iff (d e : HTMLElement) :
    d ∈ e.descendants ↔ IsDescendant d e :=
  ⟨fun h => isDescendant_of_mem_list d e.childNodes h e (fun _ hx => hx),
   mem_descendants_of_isDescendant⟩

theorem processAddedNode_eq (node : Node) (st : ChatState) :
    processAddedNode node st = processAll (passedForNode node) st := by
  unfold processAddedNode passedForNode
  cases node.asElement? with
  | none => rfl
  | some e =>
    by_cases hm : e.matches chatItemSelector = true
    · simp [hm, processAll]
    · simp [hm, HTMLElement.querySelectorAll]

theorem foldl_processAddedNode (nodes : List Node) (st : ChatState) :
    nodes.foldl (fun s node => processAddedNode node s) st
      = processAll (nodes.flatMap passedForNode) st := by
  induction nodes generalizing st with
  | nil => rfl
  | cons n ns ih =>
    rw [List.foldl_cons, ih, List.flatMap_cons, processAll_append, processAddedNode_eq]

theorem chatObserverCallback_eq (mutations : List MutationRecord) (st : ChatState) :
    chatObserverCallback mutations st = processAll (passedForBatch mutations) st := by
  unfold chatObserverCallback passedForBatch
  induction mutations generalizing st with
  | nil => rfl
  | cons m ms ih =>
    rw [List.foldl_cons, ih, List.flatMap_cons, processAll_append, foldl_processAddedNode]

/-- C10. The coverage the claim states fails on the code when a feed item
that contains another feed item is added as such: the observer callback
processes the outer item only, so the inner one (a matching descendant of
the added node) is neither announced nor recorded. The same subtree is
covered in full on the two sibling paths: when it arrives inside a wrapper
that is not a feed item, and when it is already in the chat list at
start-up. -/
theorem nested_feed_item_skipped :
    outerItem.matches chatItemSelector = true
    ∧ item42.matches chatItemSelector = true
    ∧ IsDescendant item42 outerItem
    ∧ coveredForBatch [{ addedNodes := [outerItem.toNode] }] = [outerItem, item42]
    ∧ chatObserverCallback [{ addedNodes := [outerItem.toNode] }]
          { processedIds := [], world := idleWorld }
        ≠ processAll (coveredForBatch [{ addedNodes := [outerItem.toNode] }])
          { processedIds := [], world := idleWorld }
    ∧ (chatObserverCallback [{ addedNodes := [outerItem.toNode] }]
          { processedIds := [], world := idleWorld }).world.speakCalls = [utf16 "a说：x"]
    ∧ (chatObserverCallback [{ addedNodes := [outerItem.toNode] }]
          { processedIds := [], world := idleWorld }).processedIds = [utf16 "1"]
    ∧ (chatObserverCallback [{ addedNodes := [wrappedOuter.toNode] }]
          { processedIds := [], world := idleWorld }).world.speakCalls
        = [utf16 "a说：x", utf16 "VeryLongUs说：hello"]
    ∧ (chatObserverCallback [{ addedNodes := [wrappedOuter.toNode] }]
          { processedIds := [], world := idleWorld }).processedIds
        = [utf16 "1", utf16 "42"]
    ∧ (monitorChatItems (some chatListWithOuter) idleWorld).2.speakCalls
        = [utf16 "a说：x", utf16 "VeryLongUs说：hello"]
    ∧ (monitorChatItems (some chatListWithOuter) idleWorld).1.map (fun st => st.processedIds)
        = some [utf16 "1", utf16 "42"] := by
  refine ⟨by decide, by decide, IsDescendant.child (List.mem_cons_self _ _), rfl,
    by decide, by decide, by decide, by decide, by decide, by decide, by decide⟩

/-! ## Non-empty announcements (C7) -/

theorem SpokeNonEmpty.refl (w : World) : SpokeNonEmpty w w :=
  ⟨[], by simp, by simp⟩

theorem SpokeNonEmpty.trans {w1 w2 w3 : World} (h12 : SpokeNonEmpty w1 w2)
    (h23 : SpokeNonEmpty w2 w3) : SpokeNonEmpty w1 w3 := by
  obtain ⟨a, ha, hane⟩ := h12
  obtain ⟨b, hb, hbne⟩ := h23
  refine ⟨a ++ b, by rw [hb, ha, List.append_assoc], ?_⟩
  intro t ht
  rcases List.mem_append.1 ht with ht | ht
  · exact hane t ht
  · exact hbne t ht

theorem spokeNonEmpty_consoleLog (line : JSString) (w : World) :
    SpokeNonEmpty w (consoleLog line w) :=
  ⟨[], by simp [consoleLog], by simp⟩

theorem spokeNonEmpty_handleDanmaku (username content : JSString) (w : World) :
    SpokeNonEmpty w (handleDanmaku username content w) :=
  ⟨[truncateUsername username ++ utf16 "说：" ++ content], handleDanmaku_speakCalls _ _ _, by
    intro t ht
    rw [List.mem_singleton.1 ht]
    exact danmaku_message_ne_nil username content⟩

theorem spokeNonEmpty_handlePrompt (message : JSString) (w : World) (h : message ≠ []) :
    SpokeNonEmpty w (handlePrompt message w) :=
  ⟨[message], handlePrompt_speakCalls _ _, by
    intro t ht
    rw [List.mem_singleton.1 ht]
    exact h⟩

theorem spokeNonEmpty_processDanmakuItem (item : HTMLElement) (st : ChatState) :
    SpokeNonEmpty st.world (processDanmakuItem item st).world := by
  cases hs : alreadyProcessed st.processedIds (identity item) with
  | true => rw [processDanmakuItem_seen item st hs]; exact SpokeNonEmpty.refl _
  | false =>
    rw [processDanmakuItem_fresh item st hs]
    exact spokeNonEmpty_handleDanmaku _ _ _

theorem spokeNonEmpty_processAll (items : List HTMLElement) (st : ChatState) :
    SpokeNonEmpty st.world (processAll items st).world := by
  induction items generalizing st with
  | nil => exact SpokeNonEmpty.refl _
  | cons item rest ih =>
    rw [processAll_cons]
    exact (spokeNonEmpty_processDanmakuItem item st).trans (ih _)

theorem spokeNonEmpty_chatObserverCallback (mutations : List MutationRecord)
    (st : ChatState) : SpokeNonEmpty st.world (chatObserverCallback mutations st).world := by
  rw [chatObserverCallback_eq]
  exact spokeNonEmpty_processAll _ st

theorem spokeNonEmpty_promptObserverCallback (b : HTMLElement) (st : PromptState) :
    SpokeNonEmpty st.world (promptObserverCallback b st).world := by
  by_cases hd : trim b.textContent = [] ∨ trim b.textContent = st.currentText
  · rw [promptObserverCallback_discard b st hd]; exact SpokeNonEmpty.refl _
  · have h1 : trim b.textContent ≠ [] := fun h => hd (Or.inl h)
    have h2 : trim b.textContent ≠ st.currentText := fun h => hd (Or.inr h)
    rw [promptObserverCallback_change b st h1 h2]
    exact spokeNonEmpty_handlePrompt _ _ h1

theorem spokeNonEmpty_monitorChatItems (chatList : Option HTMLElement) (w : World) :
    SpokeNonEmpty w (monitorChatItems chatList w).2 := by
  cases chatList with
  | none => exact spokeNonEmpty_consoleLog _ w
  | some l =>
    exact spokeNonEmpty_processAll (l.querySelectorAll chatItemSelector)
      { processedIds := [], world := w }

theorem spokeNonEmpty_monitorBrushPrompt (brushPrompt : Option HTMLElement) (w : World) :
    SpokeNonEmpty w (monitorBrushPrompt brushPrompt w).2 := by
  cases brushPrompt with
  | none => exact spokeNonEmpty_consoleLog _ w
  | some b =>
    rw [monitorBrushPrompt_some]
    by_cases h : trim b.textContent = []
    · simp only [h, if_true]; exact SpokeNonEmpty.refl _
    · simp only [h, if_false]; exact spokeNonEmpty_handlePrompt _ _ h

theorem spokeNonEmpty_start (chatList brushPrompt : Option HTMLElement) (w : World) :
    SpokeNonEmpty w (start chatList brushPrompt w).world :=
  (spokeNonEmpty_monitorChatItems chatList w).trans
    (spokeNonEmpty_monitorBrushPrompt brushPrompt _)

theorem spokeNonEmpty_step (s : Session) (ev : PageEvent) :
    SpokeNonEmpty s.world (s.step ev).world := by
  cases ev with
  | chatMutations mutations =>
    unfold Session.step
    cases hp : s.processedIds with
    | none => exact SpokeNonEmpty.refl _
    | some ids =>
      exact spokeNonEmpty_chatObserverCallback mutations { processedIds := ids, world := s.world }
  | promptMutation b =>
    unfold Session.step
    cases hc : s.currentText with
    | none => exact SpokeNonEmpty.refl _
    | some cur =>
      exact spokeNonEmpty_promptObserverCallback b { currentText := cur, world := s.world }
  | beforeunload => exact SpokeNonEmpty.refl _

theorem spokeNonEmpty_run (s : Session) (events : List PageEvent) :
    SpokeNonEmpty s.world (s.run events).world := by
  induction events generalizing s with
  | nil => exact SpokeNonEmpty.refl _
  | cons ev evs ih =>
    exact (spokeNonEmpty_step s ev).trans (ih (s.step ev))

/-- C7. Whatever the page holds at start-up (chat list and banner present
or not) and whatever sequence of chat mutation batches, banner
notifications and `beforeunload` follows, every call of `speakText` the
script makes has a non-empty text; the same holds for a single
`processDanmakuItem` call and a single banner notification in any state. -/
theorem nonempty_announcements (chatList brushPrompt : Option HTMLElement) (w : World)
    (events : List PageEvent) (item : HTMLElement) (cst : ChatState)
    (b : HTMLElement) (pst : PromptState) :
    (∃ anns : List JSString,
      ((start chatList brushPrompt w).run events).world.speakCalls = w.speakCalls ++ anns
      ∧ ∀ t ∈ anns, t ≠ [])
    ∧ (∃ anns : List JSString,
      (processDanmakuItem item cst).world.speakCalls = cst.world.speakCalls ++ anns
      ∧ ∀ t ∈ anns, t ≠ [])
    ∧ (∃ anns : List JSString,
      (promptObserverCallback b pst).world.speakCalls = pst.world.speakCalls ++ anns
      ∧ ∀ t ∈ anns, t ≠ []) :=
  ⟨(spokeNonEmpty_start chatList brushPrompt w).trans (spokeNonEmpty_run _ events),
    spokeNonEmpty_processDanmakuItem item cst,
    spokeNonEmpty_promptObserverCallback b pst⟩

theorem asElement?_toNode (e : HTMLElement) : e.toNode.asElement? = some e := by
  cases e with
  | mk c d ks => rfl

/-! ## De-duplication (C1) -/

/-- C1. For a non-empty identity `k` and any sequence of feed items
processed from an empty `processedIds` in which `k` occurs, the items with
identity `k` produce exactly one announcement in total and `k` ends up in
`processedIds`; at each occurrence, if it is the first one it is announced
once and `k` is recorded, and if it is a later one the call changes nothing
at all (no announcement, no log line, same `processedIds`). In particular
two feed items with identity `k` added in one mutation batch make one
announcement. -/
theorem dedup_idempotence (k : JSString) (hk : k ≠ []) (items : List HTMLElement) (w : World)
    (hocc : ∃ item ∈ items, identity item = some k) :
    announcementsFor k items { processedIds := [], world := w } = 1
    ∧ k ∈ (processAll items { processedIds := [], world := w }).processedIds
    ∧ (∀ pre item post, items = pre ++ item :: post → identity item = some k →
        ((∀ x ∈ pre, identity x ≠ some k) →
          announcements item (processAll pre { processedIds := [], world := w }) = 1
          ∧ k ∈ (processDanmakuItem item
                  (processAll pre { processedIds := [], world := w })).processedIds)
        ∧ ((∃ x ∈ pre, identity x = some k) →
          processDanmakuItem item (processAll pre { processedIds := [], world := w })
            = processAll pre { processedIds := [], world := w }))
    ∧ ∀ a b : HTMLElement, a.matches chatItemSelector = true →
        b.matches chatItemSelector = true → identity a = some k → identity b = some k →
        (chatObserverCallback [{ addedNodes := [a.toNode, b.toNode] }]
            { processedIds := [], world := w }).world.speakCalls.length
          = w.speakCalls.length + 1 := by
  refine ⟨announcementsFor_of_not_mem k hk items _ (by simp) hocc, ?_, ?_, ?_⟩
  · exact (processAll_mem_iff items _ k).2 (Or.inr ⟨hk, hocc⟩)
  · intro pre item post _ hid
    constructor
    · intro hfirst
      have hnot : k ∉ (processAll pre { processedIds := [], world := w }).processedIds := by
        intro hin
        rcases (processAll_mem_iff pre _ k).1 hin with h | ⟨_, x, hx, hx2⟩
        · simp at h
        · exact hfirst x hx hx2
      have hs : alreadyProcessed
          (processAll pre { processedIds := [], world := w }).processedIds
          (identity item) = false := by
        cases hb : alreadyProcessed
            (processAll pre { processedIds := [], world := w }).processedIds
            (identity item) with
        | false => rfl
        | true =>
          obtain ⟨k2, hk2, _, hmem⟩ := (alreadyProcessed_eq_true _ _).1 hb
          rw [hid] at hk2
          cases hk2
          exact absurd hmem hnot
      exact ⟨announcements_fresh item _ hs,
        (processDanmakuItem_mem_iff item _ k).2 (Or.inr ⟨hid, hk⟩)⟩
    · intro hearlier
      have hin : k ∈ (processAll pre { processedIds := [], world := w }).processedIds :=
        (processAll_mem_iff pre _ k).2 (Or.inr ⟨hk, hearlier⟩)
      exact processDanmakuItem_seen item _
        ((alreadyProcessed_eq_true _ _).2 ⟨k, hid, hk, hin⟩)
  · intro a b ha hb hida hidb
    have hpass : passedForBatch [{ addedNodes := [a.toNode, b.toNode] }] = [a, b] := by
      simp [passedForBatch, passedForNode, asElement?_toNode, ha, hb]
    have hfresh : alreadyProcessed
        ({ processedIds := [], world := w } : ChatState).processedIds (identity a) = false := by
      cases hx : alreadyProcessed
          ({ processedIds := [], world := w } : ChatState).processedIds (identity a) with
      | false => rfl
      | true =>
        obtain ⟨_, _, _, hmem⟩ := (alreadyProcessed_eq_true _ _).1 hx
        simp at hmem
    have hin : k ∈ (processDanmakuItem a { processedIds := [], world := w }).processedIds :=
      (processDanmakuItem_mem_iff a _ k).2 (Or.inr ⟨hida, hk⟩)
    have hseen := processDanmakuItem_seen b _
      ((alreadyProcessed_eq_true _ _).2 ⟨k, hidb, hk, hin⟩)
    rw [chatObserverCallback_eq, hpass, processAll_cons, processAll_cons, processAll_nil, hseen,
      processDanmakuItem_fresh a _ hfresh]
    simp [handleDanmaku_speakCalls]

/-- Witness for C1: the item with identity `42` twice in one batch, with an
item without identity in between. -/
theorem dedup_idempotence_witness :
    announcementsFor (utf16 "42") [item42, anonymousItem, item42]
      { processedIds := [], world := idleWorld } = 1
    ∧ utf16 "42" ∈ (processAll [item42, anonymousItem, item42]
        { processedIds := [], world := idleWorld }).processedIds :=
  have h := dedup_idempotence (utf16 "42") (by decide) [item42, anonymousItem, item42]
    idleWorld ⟨item42, List.mem_cons_self _ _, by decide⟩
  ⟨h.1, h.2.1⟩

end BiliLiveSpeaker
